import Mathlib

/-!
Verification of the per-user conversational-memory core of ai-mirror-bot
(`src/bot.py`): the session store (`USER_SUMMARY`, `USER_TURNS`), context
assembly (`_get_history`), the message handler (`handle_message`), the
compression step (`_update_memory`), the reset command (`reset`) and the
startup credential check.

Modelling choices (shallow embedding):
* Python `str` is modelled as `List Char`; `str.strip()` as `strip`
  (dropping the ASCII whitespace characters Python strips).
* The two module-level dictionaries are a `Store` with one field per
  dictionary, each a total map `Nat → Option _` (`None` = key absent,
  mirroring `dict.get(k, default)` / `dict.pop(k, None)`).
* The completion engine is an oracle passed to each handler: the reply
  path takes `List Msg → Str` (its failures propagate, out of scope
  here), the compression path takes `List Msg → Option Str` where
  `none` models a raised exception, caught in `handle_message`.
* Python list slicing `l[-n:]` is `takeLast n l`.
* Request temperatures (`0.3`, `0.2`) are modelled as rationals.
-/

namespace MirrorBot

/-- Python `str` text, as a list of characters. -/
abbrev Str := List Char

/-- The ASCII whitespace characters removed by Python `str.strip()`:
space, tab, newline, carriage return, vertical tab, form feed. -/
def pyIsSpace (c : Char) : Bool :=
  c == ' ' || c == '\t' || c == '\n' || c == '\r' ||
  c == Char.ofNat 11 || c == Char.ofNat 12

/-- Python `s.lstrip()`. -/
def lstrip (s : Str) : Str := s.dropWhile pyIsSpace

/-- Python `s.rstrip()`. -/
def rstrip (s : Str) : Str := (s.reverse.dropWhile pyIsSpace).reverse

/-- Python `s.strip()`: remove leading and trailing whitespace. -/
def strip (s : Str) : Str := rstrip (lstrip s)

/-- Python slice `l[-n:]` (for literal `n > 0`): the last `n` elements,
or all of `l` when it is shorter. -/
def takeLast (n : Nat) (l : List α) : List α := l.drop (l.length - n)

/-- Message roles used by the bot: `"system"`, `"user"`, `"assistant"`. -/
inductive Role
  | system
  | user
  | assistant
deriving DecidableEq

/-- One role-tagged message, the shape of both a stored turn
(`("user", text)` / `("assistant", text)`) and a request message
(`{"role": ..., "content": ...}`). -/
abbrev Msg := Role × Str

/-- The module-level per-user state: `USER_SUMMARY: Dict[int, str]` and
`USER_TURNS: Dict[int, List[Tuple[str, str]]]` from `src/bot.py`. -/
structure Store where
  USER_SUMMARY : Nat → Option Str
  USER_TURNS : Nat → Option (List Msg)

/-- Point update of a dictionary (`d[k] = v` / `d.pop(k, None)`). -/
def setFn (f : Nat → Option α) (k : Nat) (v : Option α) : Nat → Option α :=
  fun x => if x = k then v else f x

/-- The state at process start: both dictionaries empty. -/
def emptyStore : Store :=
  { USER_SUMMARY := fun _ => none, USER_TURNS := fun _ => none }

/-- The constant `MAX_TURNS = 8  # keep last turns (user/assistant)`. -/
def MAX_TURNS : Nat := 8

/-- The fixed `SYSTEM_PROMPT` instruction text from `src/bot.py`. -/
def SYSTEM_PROMPT : Str :=
  ("Ты AI-MIRROR.\nТвоя функция — не утешать и не давать советов, а отражать структуру мышления.\n\nПравила:\n- Не давай психологической поп-терминологии и \"успокаивания\".\n- Не говори человеку, что делать. Не лечи. Не ставь диагнозы.\n- Делай карту процесса: триггер → эмоция/телесный сигнал → мысль → искажение/паттерн → импульс → действие.\n- Показывай, где выбор был автоматическим.\n- Если пользователь просит \"что мне делать\", отвечай: \"Я могу отзеркалить варианты и последствия, но решение за тобой.\"\n- Завершай ответ 1 вопросом на углубление (мягко, но точно).\n").toList

/-- The fixed formatting text prepended to the stored summary when it is
injected into the context (`f"Краткая память пользователя (саммари): "`). -/
def summaryTag : Str := "Краткая память пользователя (саммари): ".toList

/-- The compression instruction sent by `_update_memory`. -/
def COMPRESS_PROMPT : Str :=
  "Сожми в 5–7 строк: контекст, повторяющиеся паттерны, типовые триггеры. Без советов.".toList

/-- Embedding of `_get_history(user_id)` from `src/bot.py`: start from the system
instruction, append a summary message when the stored summary is truthy
(non-empty), then append every stored turn in order. The `for` loop is
embedded as a `foldl` that pushes one message at a time, exactly as
`messages.append` does. It returns the messages and touches no state. -/
def getHistory (st : Store) (u : Nat) : List Msg :=
  let summary := (st.USER_SUMMARY u).getD []
  let turns := (st.USER_TURNS u).getD []
  let messages := [(Role.system, SYSTEM_PROMPT)]
  let messages :=
    if summary ≠ [] then messages ++ [(Role.system, summaryTag ++ summary)]
    else messages
  turns.foldl (fun ms rc => ms ++ [rc]) messages

/-- Rendering of the spec's `get_context` contract, written from the
spec's words for comparison with `getHistory`: "a fixed leading
instruction message, followed by a summary message if non-empty,
followed by all stored turns in order". -/
def contextSpec (st : Store) (u : Nat) : List Msg :=
  [(Role.system, SYSTEM_PROMPT)]
    ++ (if (st.USER_SUMMARY u).getD [] ≠ [] then
          [(Role.system, summaryTag ++ (st.USER_SUMMARY u).getD [])]
        else [])
    ++ (st.USER_TURNS u).getD []

/-- One append-then-trim mutation of the turn buffer, the two-line idiom
`USER_TURNS.setdefault(user_id, []).append((role, text))` followed by
`USER_TURNS[user_id] = USER_TURNS[user_id][-MAX_TURNS:]` used at both
store sites of `handle_message` (the spec's `append_turn`). -/
def append_turn (st : Store) (u : Nat) (r : Role) (t : Str) : Store :=
  { st with
    USER_TURNS :=
      setFn st.USER_TURNS u
        (some (takeLast MAX_TURNS ((st.USER_TURNS u).getD [] ++ [(r, t)]))) }

/-- The completion engine as seen by the main reply path: a message list
in, generated text out (a failure here propagates, outside this model). -/
abbrev ReplyEngine := List Msg → Str

/-- The completion engine as seen by the compression step: `none` models
the call raising an exception. -/
abbrev CompressEngine := List Msg → Option Str

/-- The request messages built inside `_update_memory`: the compression
instruction followed by the last ten stored turns (`turns[-10:]`). -/
def compressMessages (turns : List Msg) : List Msg :=
  (Role.system, COMPRESS_PROMPT) :: takeLast 10 turns

/-- Embedding of `_update_memory(user_id)` from `src/bot.py`: return unchanged when
fewer than 10 turns are stored; otherwise call the engine on the
compression messages. On success, strip the generated text, store
`(prev + "\n" + new_summary).strip()` as the new summary and keep only
the last six turns. When the call raises (`none`), nothing has been
written yet, so the state is returned unchanged (the exception itself is
caught by the caller, `handle_message`). -/
def _update_memory (st : Store) (u : Nat) (engine : CompressEngine) : Store :=
  let turns := (st.USER_TURNS u).getD []
  if turns.length < 10 then st
  else
    match engine (compressMessages turns) with
    | none => st
    | some raw =>
      let new_summary := strip raw
      let prev := (st.USER_SUMMARY u).getD []
      { USER_SUMMARY :=
          setFn st.USER_SUMMARY u (some (strip (prev ++ '\n' :: new_summary))),
        USER_TURNS := setFn st.USER_TURNS u (some (takeLast 6 turns)) }

/-- The reply phase of `handle_message` (`src/bot.py` lines 129-149):
strip the inbound text (`(update.message.text or "").strip()`), append
it as a user turn, build the context, call the engine on it, strip the
answer and append it as an assistant turn. Returns the state as it
stands when the reply is delivered, together with the delivered reply. -/
def afterReply (st : Store) (u : Nat) (msgText : Option Str)
    (reply : ReplyEngine) : Store × Str :=
  let text := strip (msgText.getD [])
  let st1 := append_turn st u Role.user text
  let messages := getHistory st1 u
  let answer := strip (reply messages)
  (append_turn st1 u Role.assistant answer, answer)

/-- Embedding of `handle_message` from `src/bot.py`: the reply phase, then the
best-effort `_update_memory` call wrapped in `try/except` (a raised
engine error leaves `_update_memory` without effect and is logged). The
returned text is the reply already delivered before the memory update. -/
def handle_message (st : Store) (u : Nat) (msgText : Option Str)
    (reply : ReplyEngine) (compress : CompressEngine) : Store × Str :=
  (_update_memory (afterReply st u msgText reply).1 u compress,
   (afterReply st u msgText reply).2)

/-- Embedding of `reset` from `src/bot.py`: `USER_SUMMARY.pop(user_id, None)` and
`USER_TURNS.pop(user_id, None)` — both entries removed, no error when
absent (the function is total on every store). -/
def reset (st : Store) (u : Nat) : Store :=
  { USER_SUMMARY := setFn st.USER_SUMMARY u none,
    USER_TURNS := setFn st.USER_TURNS u none }

/-- The store-mutating events reachable from the public interface: a
conversational message (with its engine oracles) or a `/reset` command.
The remaining handlers (`start`, `summary_cmd`, `mirror_cmd`) only read
state or send fixed text, so they are identities on the store. -/
inductive Event where
  | message (u : Nat) (msgText : Option Str) (reply : ReplyEngine)
      (compress : CompressEngine)
  | resetCmd (u : Nat)

/-- Effect of one event on the store. -/
def stepEvent (st : Store) : Event → Store
  | .message u m r c => (handle_message st u m r c).1
  | .resetCmd u => reset st u

/-- The store after a sequence of events run from process start. -/
def runEvents (es : List Event) : Store := es.foldl stepEvent emptyStore

/-- An environment: name of a variable to its value, `none` if unset. -/
abbrev Env := Str → Option Str

/-- Python truthiness of an optional string (`None` and `""` are falsy). -/
def pyTruthy : Option Str → Bool
  | none => false
  | some s => !s.isEmpty

/-- Python `a or b` restricted to optional strings. -/
def pyOr (a b : Option Str) : Option Str := if pyTruthy a then a else b

/-- Embedding of `BOT_TOKEN = os.getenv("BOT_TOKEN") or os.getenv("TELEGRAM_TOKEN")`. -/
def BOT_TOKEN (env : Env) : Option Str :=
  pyOr (env ("BOT_TOKEN".toList)) (env ("TELEGRAM_TOKEN".toList))

/-- The `RuntimeError` message for a missing Telegram token. -/
def botTokenError : Str :=
  "Missing BOT_TOKEN (Telegram token). Add it in Render Environment Variables.".toList

/-- The `RuntimeError` message for a missing OpenAI key. -/
def apiKeyError : Str :=
  "Missing OPENAI_API_KEY. Add it in Render Environment Variables.".toList

/-- The module-level startup check of `src/bot.py` (lines 24-30): raise
on a falsy Telegram token, then on a falsy OpenAI key; otherwise the
process continues to build the application. -/
def startup (env : Env) : Except Str Unit :=
  if !pyTruthy (BOT_TOKEN env) then .error botTokenError
  else if !pyTruthy (env ("OPENAI_API_KEY".toList)) then .error apiKeyError
  else .ok ()

/-- One request to the completion engine: model identifier, messages,
sampling temperature — the three fields both call sites fill in. -/
structure Request where
  model : Str
  messages : List Msg
  temperature : ℚ

/-- The sampling temperature of the normal reply path (`0.3`). -/
def replyTemperature : ℚ := 3 / 10

/-- The sampling temperature of the compression path (`0.2`). -/
def compressTemperature : ℚ := 1 / 5

/-- The request issued by `handle_message` (lines 138-142). -/
def mkReplyRequest (model : Str) (messages : List Msg) : Request :=
  { model := model, messages := messages, temperature := replyTemperature }

/-- The request issued by `_update_memory` (lines 115-119). -/
def mkCompressRequest (model : Str) (messages : List Msg) : Request :=
  { model := model, messages := messages, temperature := compressTemperature }

/-! ### Helper lemmas -/

lemma length_takeLast (n : Nat) (l : List α) :
    (takeLast n l).length = min n l.length := by
  simp only [takeLast, List.length_drop]
  omega

lemma takeLast_snoc (n : Nat) (hn : 1 ≤ n) (l : List α) (x : α) :
    takeLast n (l ++ [x]) = takeLast (n - 1) l ++ [x] := by
  unfold takeLast
  have hlen : (l ++ [x]).length = l.length + 1 := by simp
  rw [hlen]
  have hle : l.length + 1 - n ≤ l.length := by omega
  rw [List.drop_append_of_le_length hle]
  have harith : l.length + 1 - n = l.length - (n - 1) := by omega
  rw [harith]

/-- States in which every turn buffer respects `MAX_TURNS` and no
summary has ever been written. -/
def StoreInv (st : Store) : Prop :=
  ∀ u, ((st.USER_TURNS u).getD []).length ≤ 8 ∧ st.USER_SUMMARY u = none

lemma inv_empty : StoreInv emptyStore := by
  intro u
  exact ⟨by simp [emptyStore], rfl⟩

lemma inv_append (st : Store) (u : Nat) (r : Role) (t : Str)
    (h : StoreInv st) : StoreInv (append_turn st u r t) := by
  intro v
  refine ⟨?_, (h v).2⟩
  by_cases hv : v = u
  · subst hv
    simp [append_turn, setFn, length_takeLast, MAX_TURNS]
  · simpa only [append_turn, setFn, if_neg hv] using (h v).1

lemma update_noop (st : Store) (u : Nat) (engine : CompressEngine)
    (h : ((st.USER_TURNS u).getD []).length < 10) :
    _update_memory st u engine = st := by
  simp [_update_memory, h]

lemma inv_afterReply (st : Store) (u : Nat) (m : Option Str)
    (reply : ReplyEngine) (h : StoreInv st) : StoreInv (afterReply st u m reply).1 :=
  inv_append _ u _ _ (inv_append st u _ _ h)

lemma inv_step (st : Store) (e : Event) (h : StoreInv st) :
    StoreInv (stepEvent st e) := by
  cases e with
  | message u m r c =>
    have h2 := inv_afterReply st u m r h
    have hnoop := update_noop (afterReply st u m r).1 u c
      (lt_of_le_of_lt (h2 u).1 (by norm_num))
    show StoreInv (_update_memory (afterReply st u m r).1 u c)
    rw [hnoop]
    exact h2
  | resetCmd u =>
    intro v
    by_cases hv : v = u
    · subst hv
      exact ⟨by simp [stepEvent, reset, setFn], by simp [stepEvent, reset, setFn]⟩
    · exact ⟨by simpa [stepEvent, reset, setFn, hv] using (h v).1,
        by simpa [stepEvent, reset, setFn, hv] using (h v).2⟩

lemma inv_run (es : List Event) : StoreInv (runEvents es) := by
  suffices h : ∀ (es : List Event) (st : Store),
      StoreInv st → StoreInv (es.foldl stepEvent st) from
    h es emptyStore inv_empty
  intro es
  induction es with
  | nil => intro st h; exact h
  | cons e es ih => intro st h; exact ih _ (inv_step st e h)

lemma foldl_push (l acc : List α) :
    l.foldl (fun ms rc => ms ++ [rc]) acc = acc ++ l := by
  induction l generalizing acc with
  | nil => simp
  | cons x xs ih => simp [ih]

lemma update_none (st : Store) (u : Nat) (engine : CompressEngine)
    (h : engine (compressMessages ((st.USER_TURNS u).getD [])) = none) :
    _update_memory st u engine = st := by
  by_cases hlt : ((st.USER_TURNS u).getD []).length < 10
  · exact update_noop st u engine hlt
  · simp [_update_memory, hlt, h]

lemma append_turn_turns (st : Store) (u : Nat) (r : Role) (t : Str) :
    ((append_turn st u r t).USER_TURNS u).getD []
      = takeLast 7 ((st.USER_TURNS u).getD []) ++ [(r, t)] := by
  have h := takeLast_snoc 8 (by norm_num) ((st.USER_TURNS u).getD []) (r, t)
  simpa [append_turn, setFn, MAX_TURNS] using h

lemma getHistory_eq (st : Store) (u : Nat) :
    getHistory st u
      = (if (st.USER_SUMMARY u).getD [] ≠ [] then
           [(Role.system, SYSTEM_PROMPT),
            (Role.system, summaryTag ++ (st.USER_SUMMARY u).getD [])]
         else [(Role.system, SYSTEM_PROMPT)])
        ++ (st.USER_TURNS u).getD [] := by
  by_cases h : (st.USER_SUMMARY u).getD [] = [] <;>
    simp [getHistory, foldl_push, h]

lemma dropWhile_all (p : Char → Bool) (l : Str) (h : ∀ c ∈ l, p c = true) :
    l.dropWhile p = [] := by
  induction l with
  | nil => rfl
  | cons a t ih =>
    rw [List.dropWhile_cons, if_pos (h a (by simp))]
    exact ih fun c hc => h c (by simp [hc])

lemma strip_all_space (s : Str) (h : ∀ c ∈ s, pyIsSpace c = true) :
    strip s = [] := by
  unfold strip lstrip rstrip
  rw [dropWhile_all pyIsSpace s h]
  rfl

/-! ### Claim theorems -/

/-- One conversational exchange of the spec scenario: user 1 sends one
character of text, the reply engine answers one character, and the
compression engine stands ready to succeed if it is ever called. -/
def scenarioEvent (c r : Char) : Event :=
  Event.message 1 (some [c]) (fun _ => [r]) (fun _ => some ['S'])

/-- The spec scenario: five complete exchanges from an empty store. -/
def scenarioEvents : List Event :=
  [scenarioEvent 'A' 'B', scenarioEvent 'C' 'D', scenarioEvent 'E' 'F',
   scenarioEvent 'G' 'H', scenarioEvent 'I' 'J']

/-- C1: evaluation of the spec scenario on the code. After the first
exchange the stored turns are `[(user, "A"), (assistant, "B")]` as the
claim says; but after five complete exchanges (ten appended entries) the
buffer holds the last 8 entries, not 6, and the summary was never
written: every append trims to `MAX_TURNS = 8` before `_update_memory`
checks its `≥ 10` guard, so the compression step cannot fire even though
its engine call would succeed. -/
theorem C1_scenario_compression_never_fires :
    ((runEvents [scenarioEvent 'A' 'B']).USER_TURNS 1).getD []
        = [(Role.user, ['A']), (Role.assistant, ['B'])]
    ∧ (((runEvents scenarioEvents).USER_TURNS 1).getD []).length = 8
    ∧ ((runEvents scenarioEvents).USER_TURNS 1).getD []
        = [(Role.user, ['C']), (Role.assistant, ['D']), (Role.user, ['E']),
           (Role.assistant, ['F']), (Role.user, ['G']), (Role.assistant, ['H']),
           (Role.user, ['I']), (Role.assistant, ['J'])]
    ∧ (runEvents scenarioEvents).USER_SUMMARY 1 = none := by
  decide

/-- C6: when the engine call of the compression step raises (`none`),
`handle_message` still returns normally — the exception is caught at its
call site — and the whole store, in particular the user's summary and
turn buffer, is exactly the state `afterReply` in which the reply was
delivered; the delivered reply itself does not depend on the outcome of
the compression attempt. -/
theorem C6_compression_failure_isolated :
    ∀ (st : Store) (u : Nat) (m : Option Str) (reply : ReplyEngine)
      (compress : CompressEngine),
      compress (compressMessages
          (((afterReply st u m reply).1.USER_TURNS u).getD [])) = none →
      handle_message st u m reply compress = afterReply st u m reply
      ∧ ∀ compress2 : CompressEngine,
          (handle_message st u m reply compress).2
            = (handle_message st u m reply compress2).2 := by
  intro st u m reply compress hfail
  refine ⟨?_, fun _ => rfl⟩
  show (_update_memory (afterReply st u m reply).1 u compress,
      (afterReply st u m reply).2) = afterReply st u m reply
  rw [update_none _ _ _ hfail]

theorem C6_compression_failure_isolated_witness :
    handle_message emptyStore 1 (some ['A']) (fun _ => ['B']) (fun _ => none)
        = afterReply emptyStore 1 (some ['A']) (fun _ => ['B'])
    ∧ ∀ compress2 : CompressEngine,
        (handle_message emptyStore 1 (some ['A']) (fun _ => ['B'])
          (fun _ => none)).2
          = (handle_message emptyStore 1 (some ['A']) (fun _ => ['B'])
              compress2).2 :=
  C6_compression_failure_isolated emptyStore 1 (some ['A']) (fun _ => ['B'])
    (fun _ => none) rfl

/-- C7: reset removes the user's session entirely (summary and turns
both gone), is total — so on a store with no session for the user it
simply does nothing, raising no error — leaves every other user's state
untouched, and a subsequent context build yields only the leading
instruction message. -/
theorem C7_reset_removes_session :
    ∀ (st : Store) (u : Nat),
      (reset st u).USER_SUMMARY u = none
      ∧ (reset st u).USER_TURNS u = none
      ∧ getHistory (reset st u) u = [(Role.system, SYSTEM_PROMPT)]
      ∧ ∀ v : Nat, v ≠ u →
          (reset st u).USER_SUMMARY v = st.USER_SUMMARY v
          ∧ (reset st u).USER_TURNS v = st.USER_TURNS v := by
  intro st u
  refine ⟨by simp [reset, setFn], by simp [reset, setFn], ?_, ?_⟩
  · simp [getHistory, reset, setFn]
  · intro v hv
    exact ⟨by simp [reset, setFn, hv], by simp [reset, setFn, hv]⟩

theorem C7_reset_removes_session_witness :
    (reset emptyStore 1).USER_SUMMARY 1 = none
    ∧ (reset emptyStore 1).USER_TURNS 1 = none
    ∧ getHistory (reset emptyStore 1) 1 = [(Role.system, SYSTEM_PROMPT)]
    ∧ ((reset emptyStore 1).USER_SUMMARY 2 = emptyStore.USER_SUMMARY 2
       ∧ (reset emptyStore 1).USER_TURNS 2 = emptyStore.USER_TURNS 2) :=
  ⟨(C7_reset_removes_session emptyStore 1).1,
   (C7_reset_removes_session emptyStore 1).2.1,
   (C7_reset_removes_session emptyStore 1).2.2.1,
   (C7_reset_removes_session emptyStore 1).2.2.2 2 (by decide)⟩

/-- C8: startup fails fast with the corresponding fatal error when the
Telegram token (from either of its two variables) or the OpenAI key is
unset or empty, and proceeds when both are present (truthy). -/
theorem C8_startup_credentials :
    ∀ env : Env,
      (pyTruthy (BOT_TOKEN env) = false → startup env = .error botTokenError)
      ∧ (pyTruthy (BOT_TOKEN env) = true →
          pyTruthy (env ("OPENAI_API_KEY".toList)) = false →
          startup env = .error apiKeyError)
      ∧ (pyTruthy (BOT_TOKEN env) = true →
          pyTruthy (env ("OPENAI_API_KEY".toList)) = true →
          startup env = .ok ()) := by
  intro env
  refine ⟨fun h => by unfold startup; rw [h]; rfl,
    fun h1 h2 => by unfold startup; rw [h1, h2]; rfl,
    fun h1 h2 => by unfold startup; rw [h1, h2]; rfl⟩

/-- An environment with no variable set at all. -/
def envMissing : Env := fun _ => none

/-- An environment in which every variable is set to `"x"`. -/
def envFull : Env := fun _ => some ['x']

theorem C8_startup_credentials_witness :
    startup envMissing = .error botTokenError
    ∧ startup envFull = .ok () :=
  ⟨(C8_startup_credentials envMissing).1 (by decide),
   (C8_startup_credentials envFull).2.2 (by decide) (by decide)⟩

/-- C9: both completion-engine call sites fill in the `temperature`
field of their request; the reply path always uses `0.3`, the
compression path always uses `0.2`, and the compression temperature is
strictly lower. -/
theorem C9_two_temperatures :
    (∀ (model : Str) (messages : List Msg),
        (mkReplyRequest model messages).temperature = replyTemperature)
    ∧ (∀ (model : Str) (messages : List Msg),
        (mkCompressRequest model messages).temperature = compressTemperature)
    ∧ compressTemperature < replyTemperature := by
  refine ⟨fun _ _ => rfl, fun _ _ => rfl, ?_⟩
  norm_num [compressTemperature, replyTemperature]

/-- C2: for every user and every sequence of inbound messages and engine
replies, after each append of a turn (user or assistant) the stored turn
count for that user is at most 8, and the bound also holds after a
successful compression. -/
theorem C2_turn_count_bound :
    (∀ (st : Store) (u : Nat) (r : Role) (t : Str),
      (((append_turn st u r t).USER_TURNS u).getD []).length ≤ 8)
    ∧ (∀ (st : Store) (u : Nat) (engine : CompressEngine) (raw : Str),
        10 ≤ ((st.USER_TURNS u).getD []).length →
        engine (compressMessages ((st.USER_TURNS u).getD [])) = some raw →
        (((_update_memory st u engine).USER_TURNS u).getD []).length ≤ 8)
    ∧ (∀ (es : List Event) (u : Nat),
        (((runEvents es).USER_TURNS u).getD []).length ≤ 8) := by
  refine ⟨?_, ?_, ?_⟩
  · intro st u r t
    simp [append_turn, setFn, length_takeLast, MAX_TURNS]
  · intro st u engine raw h10 heng
    simp [_update_memory, Nat.not_lt.2 h10, heng, setFn, length_takeLast]
  · intro es u
    exact (inv_run es u).1

/-- A store holding ten turns for user 1, used to exhibit the
compression branch on concrete data. -/
def tenTurnStore : Store :=
  { USER_SUMMARY := fun _ => none,
    USER_TURNS := fun v =>
      if v = 1 then some (List.replicate 10 (Role.user, ['a'])) else none }

theorem C2_turn_count_bound_witness :
    (((append_turn emptyStore 1 Role.user ['a']).USER_TURNS 1).getD []).length ≤ 8
    ∧ (((_update_memory tenTurnStore 1 (fun _ => some ['s'])).USER_TURNS 1).getD
        []).length ≤ 8 :=
  ⟨C2_turn_count_bound.1 emptyStore 1 Role.user ['a'],
   C2_turn_count_bound.2.1 tenTurnStore 1 (fun _ => some ['s']) ['s']
     (by decide) rfl⟩

/-- C3: in every state reachable from the empty store by message and
reset events, every user's turn count stays strictly below 10, so the
compression guard never passes and the stored summary stays absent. -/
theorem C3_compression_unreachable :
    ∀ (es : List Event) (u : Nat),
      (((runEvents es).USER_TURNS u).getD []).length < 10
      ∧ (runEvents es).USER_SUMMARY u = none := by
  intro es u
  exact ⟨lt_of_le_of_lt (inv_run es u).1 (by norm_num), (inv_run es u).2⟩

/-- C4: building the context returns exactly the fixed instruction
message, then a summary message if and only if the stored summary is
non-empty, then all stored turns oldest-to-newest; `getHistory` is a
pure function of the store, so it mutates nothing. -/
theorem C4_context_assembly :
    ∀ (st : Store) (u : Nat), getHistory st u = contextSpec st u := by
  intro st u
  by_cases h : (st.USER_SUMMARY u).getD [] = [] <;>
    simp [getHistory, contextSpec, foldl_push, h]

/-- C10: the inbound text (or `""` when the payload is absent) is
stripped of surrounding whitespace before storage; even when the
stripped text is empty the message is appended as a user turn — followed
by the assistant turn of the delivered reply — and that user turn is the
last message of the context sent to the completion engine. -/
theorem C10_whitespace_message_stored :
    ∀ (st : Store) (u : Nat) (m : Option Str) (reply : ReplyEngine)
      (compress : CompressEngine),
      (∃ pre,
        (((handle_message st u m reply compress).1.USER_TURNS u).getD [])
          = pre ++ [(Role.user, strip (m.getD [])),
                    (Role.assistant, (afterReply st u m reply).2)])
      ∧ (getHistory (append_turn st u Role.user (strip (m.getD []))) u).getLast?
          = some (Role.user, strip (m.getD []))
      ∧ ((∀ c ∈ m.getD [], pyIsSpace c = true) → strip (m.getD []) = []) := by
  intro st u m reply compress
  have hAR1 : (afterReply st u m reply).1
      = append_turn (append_turn st u Role.user (strip (m.getD []))) u
          Role.assistant (afterReply st u m reply).2 := rfl
  have hturns : (((afterReply st u m reply).1.USER_TURNS u).getD [])
      = takeLast 6 (takeLast 7 ((st.USER_TURNS u).getD []))
        ++ [(Role.user, strip (m.getD [])),
            (Role.assistant, (afterReply st u m reply).2)] := by
    rw [hAR1, append_turn_turns, append_turn_turns,
      takeLast_snoc 7 (by norm_num)]
    simp
  have hlen : (((afterReply st u m reply).1.USER_TURNS u).getD []).length
      < 10 := by
    rw [hturns]
    simp only [List.length_append, length_takeLast, List.length_cons,
      List.length_nil]
    omega
  have hnoop := update_noop (afterReply st u m reply).1 u compress hlen
  refine ⟨⟨takeLast 6 (takeLast 7 ((st.USER_TURNS u).getD [])), ?_⟩, ?_, ?_⟩
  · show (((_update_memory (afterReply st u m reply).1 u compress).USER_TURNS
        u).getD []) = _
    rw [hnoop, hturns]
  · rw [getHistory_eq, append_turn_turns]
    simp [List.getLast?_append]
  · exact fun h => strip_all_space (m.getD []) h

theorem C10_whitespace_message_stored_witness :
    (∃ pre,
      (((handle_message emptyStore 1 (some [' ']) (fun _ => ['B'])
            (fun _ => none)).1.USER_TURNS 1).getD [])
        = pre ++ [(Role.user, strip ((some [' '] : Option Str).getD [])),
                  (Role.assistant,
                    (afterReply emptyStore 1 (some [' '])
                      (fun _ => ['B'])).2)])
    ∧ (getHistory (append_turn emptyStore 1 Role.user
          (strip ((some [' '] : Option Str).getD []))) 1).getLast?
        = some (Role.user, strip ((some [' '] : Option Str).getD []))
    ∧ strip ((some [' '] : Option Str).getD []) = [] :=
  ⟨(C10_whitespace_message_stored emptyStore 1 (some [' ']) (fun _ => ['B'])
      (fun _ => none)).1,
   (C10_whitespace_message_stored emptyStore 1 (some [' ']) (fun _ => ['B'])
      (fun _ => none)).2.1,
   (C10_whitespace_message_stored emptyStore 1 (some [' ']) (fun _ => ['B'])
      (fun _ => none)).2.2 (by decide)⟩

/-! ### Lemmas about `strip` for the compression claim -/

lemma length_dropWhile_le (p : Char → Bool) (l : Str) :
    (l.dropWhile p).length ≤ l.length :=
  (List.dropWhile_sublist p).length_le

lemma dropWhile_eq_of_length (p : Char → Bool) (l : Str)
    (h : (l.dropWhile p).length = l.length) : l.dropWhile p = l :=
  (List.dropWhile_sublist p).eq_of_length h

lemma length_rstrip_le (l : Str) : (rstrip l).length ≤ l.length := by
  rw [rstrip, List.length_reverse, ← List.length_reverse l]
  exact length_dropWhile_le _ _

lemma stripped_lstrip (s : Str) (h : strip s = s) : lstrip s = s := by
  have h1 : (lstrip s).length ≤ s.length := length_dropWhile_le _ _
  have h2 : (rstrip (lstrip s)).length ≤ (lstrip s).length :=
    length_rstrip_le _
  have h3 : (strip s).length = s.length := by rw [h]
  have h4 : (strip s).length = (rstrip (lstrip s)).length := rfl
  have h5 : (lstrip s).length = s.length := by omega
  exact dropWhile_eq_of_length _ _ h5

lemma stripped_rstrip (s : Str) (h : strip s = s) : rstrip s = s := by
  have hl := stripped_lstrip s h
  unfold strip at h
  rw [hl] at h
  exact h

lemma lstrip_of_head (a : Char) (t : Str) (ha : pyIsSpace a = false) :
    lstrip (a :: t) = a :: t := by
  simp [lstrip, List.dropWhile_cons, ha]

lemma head_not_space (a : Char) (t : Str) (h : lstrip (a :: t) = a :: t) :
    pyIsSpace a = false := by
  by_contra hc
  have ha : pyIsSpace a = true := by simpa using hc
  have hle : (lstrip (a :: t)).length ≤ t.length := by
    simp only [lstrip, List.dropWhile_cons, ha, if_true]
    exact length_dropWhile_le _ _
  rw [h] at hle
  simp at hle

lemma rstrip_rev (s : Str) (h : rstrip s = s) :
    List.dropWhile pyIsSpace s.reverse = s.reverse := by
  have h2 := congrArg List.reverse h
  rw [rstrip, List.reverse_reverse] at h2
  exact h2

/-- The summary stored by a successful compression keeps the previous
(already stripped) summary as a prefix. -/
lemma summary_grow (prev ns : Str) (hprev : strip prev = prev) :
    prev <+: strip (prev ++ '\n' :: ns) := by
  rcases prev with _ | ⟨a, t⟩
  · exact ⟨strip ('\n' :: ns), rfl⟩
  · have hl := stripped_lstrip _ hprev
    have hr := stripped_rstrip _ hprev
    have ha := head_not_space a t hl
    have hlstep : lstrip ((a :: t) ++ '\n' :: ns) = (a :: t) ++ '\n' :: ns := by
      show lstrip (a :: (t ++ '\n' :: ns)) = _
      rw [lstrip_of_head _ _ ha]
      rfl
    unfold strip
    rw [hlstep]
    unfold rstrip
    rw [List.reverse_append, List.dropWhile_append]
    by_cases hd : (List.dropWhile pyIsSpace ('\n' :: ns).reverse).isEmpty
    · rw [if_pos hd, rstrip_rev _ hr, List.reverse_reverse]
    · rw [if_neg hd, List.reverse_append, List.reverse_reverse]
      exact ⟨_, rfl⟩

/-- C5: the compression step is a no-op below ten stored turns; on a
successful engine call it stores `(prev + "\n" + new_summary).strip()`
as the new summary — keeping the previous (stripped) summary as a
prefix, so the summary length never decreases — sends the compression
instruction followed by exactly the most recent ten turns, and truncates
the turn buffer to the last six entries. -/
theorem C5_compression_step :
    (∀ (st : Store) (u : Nat) (engine : CompressEngine),
        ((st.USER_TURNS u).getD []).length < 10 →
        _update_memory st u engine = st)
    ∧ (∀ (st : Store) (u : Nat) (engine : CompressEngine) (raw : Str),
        10 ≤ ((st.USER_TURNS u).getD []).length →
        strip ((st.USER_SUMMARY u).getD []) = (st.USER_SUMMARY u).getD [] →
        engine (compressMessages ((st.USER_TURNS u).getD [])) = some raw →
        ((_update_memory st u engine).USER_SUMMARY u
            = some (strip ((st.USER_SUMMARY u).getD [] ++ '\n' :: strip raw))
          ∧ (st.USER_SUMMARY u).getD []
              <+: strip ((st.USER_SUMMARY u).getD [] ++ '\n' :: strip raw)
          ∧ ((st.USER_SUMMARY u).getD []).length
              ≤ (strip ((st.USER_SUMMARY u).getD []
                  ++ '\n' :: strip raw)).length)
        ∧ ((_update_memory st u engine).USER_TURNS u
              = some (takeLast 6 ((st.USER_TURNS u).getD []))
            ∧ (takeLast 6 ((st.USER_TURNS u).getD [])).length = 6)
        ∧ (compressMessages ((st.USER_TURNS u).getD [])
              = (Role.system, COMPRESS_PROMPT)
                :: takeLast 10 ((st.USER_TURNS u).getD [])
            ∧ (takeLast 10 ((st.USER_TURNS u).getD [])).length = 10
            ∧ ((st.USER_TURNS u).getD []).take
                  (((st.USER_TURNS u).getD []).length - 10)
                ++ takeLast 10 ((st.USER_TURNS u).getD [])
                = (st.USER_TURNS u).getD [])) := by
  constructor
  · exact fun st u engine h => update_noop st u engine h
  · intro st u engine raw h10 hprev heng
    have hpre := summary_grow ((st.USER_SUMMARY u).getD []) (strip raw) hprev
    refine ⟨⟨?_, hpre, hpre.length_le⟩, ⟨?_, ?_⟩, rfl, ?_, ?_⟩
    · simp [_update_memory, Nat.not_lt.2 h10, heng, setFn]
    · simp [_update_memory, Nat.not_lt.2 h10, heng, setFn]
    · rw [length_takeLast]; omega
    · rw [length_takeLast]; omega
    · exact List.take_append_drop _ _

theorem C5_compression_step_witness :
    _update_memory tenTurnStore 2 (fun _ => some ['s']) = tenTurnStore
    ∧ (((_update_memory tenTurnStore 1 (fun _ => some ['s'])).USER_SUMMARY 1
          = some (strip ((tenTurnStore.USER_SUMMARY 1).getD []
              ++ '\n' :: strip ['s']))
        ∧ (tenTurnStore.USER_SUMMARY 1).getD []
            <+: strip ((tenTurnStore.USER_SUMMARY 1).getD []
                ++ '\n' :: strip ['s'])
        ∧ ((tenTurnStore.USER_SUMMARY 1).getD []).length
            ≤ (strip ((tenTurnStore.USER_SUMMARY 1).getD []
                ++ '\n' :: strip ['s'])).length)
      ∧ ((_update_memory tenTurnStore 1 (fun _ => some ['s'])).USER_TURNS 1
            = some (takeLast 6 ((tenTurnStore.USER_TURNS 1).getD []))
          ∧ (takeLast 6 ((tenTurnStore.USER_TURNS 1).getD [])).length = 6)
      ∧ (compressMessages ((tenTurnStore.USER_TURNS 1).getD [])
            = (Role.system, COMPRESS_PROMPT)
              :: takeLast 10 ((tenTurnStore.USER_TURNS 1).getD [])
          ∧ (takeLast 10 ((tenTurnStore.USER_TURNS 1).getD [])).length = 10
          ∧ ((tenTurnStore.USER_TURNS 1).getD []).take
                (((tenTurnStore.USER_TURNS 1).getD []).length - 10)
              ++ takeLast 10 ((tenTurnStore.USER_TURNS 1).getD [])
              = (tenTurnStore.USER_TURNS 1).getD [])) :=
  ⟨C5_compression_step.1 tenTurnStore 2 (fun _ => some ['s']) (by decide),
   C5_compression_step.2 tenTurnStore 1 (fun _ => some ['s']) ['s']
     (by decide) (by decide) rfl⟩

end MirrorBot
